import Mathlib

/-!
# Buffer (services/internal/buffer.h) and PCA train_result (algo/pca/train_types.cpp)

A shallow embedding of the public `Buffer<T>` value type of oneDAL and of the
PCA `train_result` accessors.

`Buffer<T>` holds one `SharedPtr<BufferIface<T>>`.  Backend objects live in an
explicit heap of reference-counted cells; a pointer is a natural number and `0`
is the null pointer.  Host memory is a function from addresses to elements.
The header includes `buffer_impl.h`, which is where `BufferIface`, `HostBuffer`,
the converters and `tryAssignStatusAndThrow` are declared; those parts are
modelled from the written specification and are marked as such.
-/

namespace daal.services.internal

/-- Error identifiers.  `ErrorEmptyBuffer` is the one named in buffer.h; the other
three are the conditions of the error taxonomy of the specification. -/
inductive ErrorID where
  | ErrorEmptyBuffer
  | AllocationFailure
  | UnsupportedConversion
  | OutOfRangeSubBuffer
  deriving DecidableEq, Repr

/-- Modelled from the spec: `services::Status` (declared outside buffer.h).  A status
slot either is clean or carries the designated error condition. -/
inductive Status where
  | ok
  | error (id : ErrorID)
  deriving DecidableEq, Repr

/-- Result of running a member function: it returns a value, it stops execution
with a hard failure (`throw` / abort) carrying an error, or it dereferences a pointer
that is not live (undefined behaviour). -/
inductive Outcome (α : Type) where
  | ret (a : α)
  | halt (e : ErrorID)
  | undefined
  deriving DecidableEq, Repr

/-- Sequencing: a hard failure or undefined behaviour skips the rest of the body. -/
def Outcome.bind {α β : Type} (o : Outcome α) (f : α → Outcome β) : Outcome β :=
  match o with
  | .ret a => f a
  | .halt e => .halt e
  | .undefined => .undefined

/-- Access flag `data_management::ReadWriteMode`. -/
inductive ReadWriteMode where
  | readOnly
  | writeOnly
  | readWrite
  deriving DecidableEq, Repr

/-- Class `SharedPtr<T>` to host data: the address it holds, `0` for the null pointer
(`SharedPtr<T>()`).  A raw `T *` is the same address without ownership; ownership of
the element array is not tracked. -/
structure SharedPtr where
  get : Nat
  deriving DecidableEq, Repr

/-- The default-constructed `SharedPtr<T>()`. -/
def SharedPtr.null : SharedPtr := ⟨0⟩

/-- Enumeration `cl::sycl::usm::alloc`. -/
inductive usm_alloc where
  | host
  | device
  | shared
  deriving DecidableEq, Repr

/-- Class `cl::sycl::buffer<T, 1>`: a runtime-managed buffer, of which only the
one-dimensional range (the number of elements it holds) is observed here. -/
structure sycl_buffer where
  range : Nat
  deriving DecidableEq, Repr

/-- Modelled from the spec: the backend interface `BufferIface<T>` and its three concrete
variants (Host, AcceleratorBuffer, UnifiedMemory), declared in buffer_impl.h and
buffer_impl_sycl.h.  The constructor arguments are those passed in buffer.h. -/
inductive BufferIface where
  | HostBuffer (data : SharedPtr) (size : Nat)
  | SyclBuffer (buffer : sycl_buffer)
  | UsmBuffer (data : SharedPtr) (size : Nat) (allocType : usm_alloc)
  deriving DecidableEq, Repr

/-- Modelled from the spec: `BufferIface::size()`, the count of elements of the backend:
the count passed at construction, or the range of the wrapped accelerator buffer. -/
def BufferIface.size : BufferIface → Nat
  | .HostBuffer _ size => size
  | .SyclBuffer buffer => buffer.range
  | .UsmBuffer _ size _ => size

/-- Modelled from the spec: `BufferIface::getSubBuffer(offset, size)`.  It requires
`offset + size ≤ size()`; a violation is a precondition violation that stops execution
(fail fast).  Otherwise it yields a new backend instance for the requested range: for
the Host backend one that aliases the same array at the given offset. -/
def BufferIface.getSubBuffer (impl : BufferIface) (offset size : Nat) : Outcome BufferIface :=
  if offset + size ≤ impl.size then
    match impl with
    | .HostBuffer data _ => .ret (.HostBuffer ⟨data.get + offset⟩ size)
    | .SyclBuffer _ => .ret (.SyclBuffer ⟨size⟩)
    | .UsmBuffer data _ allocType => .ret (.UsmBuffer ⟨data.get + offset⟩ size allocType)
  else
    .halt .OutOfRangeSubBuffer

/-- Modelled from the spec: `internal::tryAssignStatusAndThrow(status, id)` (declared
outside buffer.h).  The error is signalled through the error-output slot when one is
supplied, and as a hard failure otherwise.  The result is the slot after the call. -/
def tryAssignStatusAndThrow (status : Option Status) (id : ErrorID) : Outcome (Option Status) :=
  match status with
  | some _ => .ret (some (.error id))
  | none => .halt id

/-- A heap cell: a backend object and the number of `SharedPtr`s that own it. -/
structure Cell where
  obj : BufferIface
  refs : Nat
  deriving DecidableEq, Repr

/-- The heap of backend objects.  The object at address `a + 1` is `cells[a]`; a freed
cell is `none`.  Address `0` is the null pointer. -/
structure Heap where
  cells : List (Option Cell)
  deriving DecidableEq, Repr

/-- The heap with no object. -/
def Heap.empty : Heap := ⟨[]⟩

/-- The live cell a pointer refers to, if any. -/
def Heap.lookup (h : Heap) (p : Nat) : Option Cell :=
  if p = 0 then none else (h.cells[p - 1]?).join

/-- Expression `new X(...)` handed to a `SharedPtr`: a fresh address, owned once. -/
def Heap.alloc (h : Heap) (obj : BufferIface) : Heap × Nat :=
  (⟨h.cells ++ [some ⟨obj, 1⟩]⟩, h.cells.length + 1)

/-- Copying a `SharedPtr`: one more owner. -/
def Heap.retain (h : Heap) (p : Nat) : Heap :=
  match h.lookup p with
  | some c => ⟨h.cells.set (p - 1) (some ⟨c.obj, c.refs + 1⟩)⟩
  | none => h

/-- Dropping a `SharedPtr`: one owner fewer; the object is released when the last
owner is dropped. -/
def Heap.release (h : Heap) (p : Nat) : Heap :=
  match h.lookup p with
  | some c =>
    if c.refs ≤ 1 then ⟨h.cells.set (p - 1) none⟩
    else ⟨h.cells.set (p - 1) (some ⟨c.obj, c.refs - 1⟩)⟩
  | none => h

/-- Class `Buffer<T>`: the single data member `SharedPtr<internal::BufferIface<T> > _impl`,
as the address it holds. -/
structure Buffer where
  _impl : Nat
  deriving DecidableEq, Repr

/-- Constructor `Buffer()`: creates an empty Buffer object. -/
def Buffer.empty : Buffer := ⟨0⟩

/-- Constructor `Buffer(T * data, size_t size) : _impl(new internal::HostBuffer<T>(data, size))`. -/
def Buffer.ofRawPtr (h : Heap) (data : Nat) (size : Nat) : Heap × Buffer :=
  let r := h.alloc (.HostBuffer ⟨data⟩ size)
  (r.1, ⟨r.2⟩)

/-- Constructor `Buffer(const SharedPtr<T> & data, size_t size) : _impl(new internal::HostBuffer<T>(data, size))`. -/
def Buffer.ofSharedPtr (h : Heap) (data : SharedPtr) (size : Nat) : Heap × Buffer :=
  let r := h.alloc (.HostBuffer data size)
  (r.1, ⟨r.2⟩)

/-- Constructor `Buffer(const cl::sycl::buffer<T, 1> & buffer) : _impl(new internal::SyclBuffer<T>(buffer))`. -/
def Buffer.ofSycl (h : Heap) (buffer : sycl_buffer) : Heap × Buffer :=
  let r := h.alloc (.SyclBuffer buffer)
  (r.1, ⟨r.2⟩)

/-- Constructor `Buffer(T * usmData, size_t size, cl::sycl::usm::alloc allocType)` and its
shared-pointer overload. -/
def Buffer.ofUsm (h : Heap) (usmData : SharedPtr) (size : Nat) (allocType : usm_alloc) : Heap × Buffer :=
  let r := h.alloc (.UsmBuffer usmData size allocType)
  (r.1, ⟨r.2⟩)

/-- The implicit copy constructor: the copy holds the same `_impl` and the backend gains
an owner. -/
def Buffer.copy (h : Heap) (b : Buffer) : Heap × Buffer :=
  (h.retain b._impl, ⟨b._impl⟩)

/-- Member `operator bool() const { return _impl; }`. -/
def Buffer.toBool (b : Buffer) : Bool :=
  b._impl != 0

/-- Member `bool operator==(const Buffer & other) const { return _impl.get() == other._impl.get(); }`. -/
def Buffer.eq (a other : Buffer) : Bool :=
  a._impl == other._impl

/-- Member `bool operator!=(const Buffer & other) const { return _impl.get() != other._impl.get(); }`. -/
def Buffer.ne (a other : Buffer) : Bool :=
  a._impl != other._impl

/-- Member `size_t size() const`: `0` when `!_impl`, else `_impl->size()`.  The result is `none`
only when `_impl` is a non-null pointer that is not live in the heap. -/
def Buffer.size (h : Heap) (b : Buffer) : Option Nat :=
  if b._impl = 0 then some 0
  else (h.lookup b._impl).map fun c => c.obj.size

/-- Member `void reset() { _impl.reset(); }`. -/
def Buffer.reset (h : Heap) (b : Buffer) : Heap × Buffer :=
  if b._impl = 0 then (h, ⟨0⟩)
  else (h.release b._impl, ⟨0⟩)

/-- Member `SharedPtr<T> toHost(const ReadWriteMode & rwFlag, Status * status = NULL) const`.
`conv` stands for `internal::HostBufferConverter<T>().toHost(*_impl, rwFlag, status)`,
which receives the slot and gives back the host pointer and the slot after the call. -/
def Buffer.toHost
    (conv : BufferIface → ReadWriteMode → Option Status → Outcome (SharedPtr × Option Status))
    (h : Heap) (b : Buffer) (rwFlag : ReadWriteMode) (status : Option Status) :
    Outcome (SharedPtr × Option Status) :=
  if b._impl = 0 then
    (tryAssignStatusAndThrow status .ErrorEmptyBuffer).bind fun st => .ret (SharedPtr.null, st)
  else
    match h.lookup b._impl with
    | some c => conv c.obj rwFlag status
    | none => .undefined

/-- Member `cl::sycl::buffer<T, 1> toSycl(Status * status = NULL) const`.
`conv` stands for `internal::SyclBufferConverter<T>().toSycl(*_impl)`, which is not
given the slot. -/
def Buffer.toSycl (conv : BufferIface → Outcome sycl_buffer)
    (h : Heap) (b : Buffer) (status : Option Status) : Outcome (sycl_buffer × Option Status) :=
  if b._impl = 0 then
    (tryAssignStatusAndThrow status .ErrorEmptyBuffer).bind fun st => .ret (⟨1⟩, st)
  else
    match h.lookup b._impl with
    | some c => (conv c.obj).bind fun r => .ret (r, status)
    | none => .undefined

/-- Member `SharedPtr<T> toUSM(Status * status = NULL) const`.
`conv` stands for `internal::SyclBufferConverter<T>().toUSM(*_impl)`, which is not given
the slot. -/
def Buffer.toUSM (conv : BufferIface → Outcome SharedPtr)
    (h : Heap) (b : Buffer) (status : Option Status) : Outcome (SharedPtr × Option Status) :=
  if b._impl = 0 then
    (tryAssignStatusAndThrow status .ErrorEmptyBuffer).bind fun st => .ret (SharedPtr.null, st)
  else
    match h.lookup b._impl with
    | some c => (conv c.obj).bind fun r => .ret (r, status)
    | none => .undefined

/-- Member `Buffer<T> getSubBuffer(size_t offset, size_t size, Status * status = NULL) const`.
On a non-empty Buffer the backend object returned by `_impl->getSubBuffer(offset, size)`
is wrapped by the private constructor `Buffer(internal::BufferIface<T> * impl)`; the
backend is not given the slot. -/
def Buffer.getSubBuffer (h : Heap) (b : Buffer) (offset size : Nat) (status : Option Status) :
    Outcome (Heap × Buffer × Option Status) :=
  if b._impl = 0 then
    (tryAssignStatusAndThrow status .ErrorEmptyBuffer).bind fun st => .ret (h, Buffer.empty, st)
  else
    match h.lookup b._impl with
    | some c =>
      (c.obj.getSubBuffer offset size).bind fun sub =>
        let r := h.alloc sub
        .ret (r.1, ⟨r.2⟩, status)
    | none => .undefined

/-- Modelled from the spec: the `i`-th element seen through the host view of a Host-backed
Buffer (Host to Host conversion is the identity, no copy): the element of host memory
`mem` at the backend's data pointer plus `i`, for `i` below the element count. -/
def Buffer.hostElem {T : Type} (mem : Nat → T) (h : Heap) (b : Buffer) (i : Nat) : Option T :=
  match h.lookup b._impl with
  | some ⟨.HostBuffer data size, _⟩ => if i < size then some (mem (data.get + i)) else none
  | _ => none

end daal.services.internal

namespace oneapi.dal.pca

/-- Class `detail::train_result_impl`: the three fields behind `train_result::impl_`.  The
classes `model<Task>` and `table` are declared outside train_types.cpp and are type
parameters here. -/
structure train_result_impl (Model Table : Type) where
  trained_model : Model
  eigenvalues : Table
  explained_variance : Table

/-- Class `train_result<Task>`, as the implementation object `impl_` points to. -/
structure train_result (Model Table : Type) where
  impl_ : train_result_impl Model Table

/-- Member `model<Task> train_result<Task>::get_model() const`. -/
def train_result.get_model {Model Table : Type} (r : train_result Model Table) : Model :=
  r.impl_.trained_model

/-- Member `table train_result<Task>::get_eigenvalues() const`. -/
def train_result.get_eigenvalues {Model Table : Type} (r : train_result Model Table) : Table :=
  r.impl_.eigenvalues

/-- Member `table train_result<Task>::get_eigenvectors() const`; `model_get_eigenvectors` is
`model<Task>::get_eigenvectors`, declared outside train_types.cpp. -/
def train_result.get_eigenvectors {Model Table : Type} (model_get_eigenvectors : Model → Table)
    (r : train_result Model Table) : Table :=
  model_get_eigenvectors r.impl_.trained_model

/-- Member `table train_result<Task>::get_explained_variance() const`. -/
def train_result.get_explained_variance {Model Table : Type} (r : train_result Model Table) : Table :=
  r.impl_.explained_variance

/-- Member `void train_result<Task>::set_model_impl(const model<Task>& value)`. -/
def train_result.set_model_impl {Model Table : Type} (r : train_result Model Table)
    (value : Model) : train_result Model Table :=
  ⟨{ r.impl_ with trained_model := value }⟩

/-- Member `void train_result<Task>::set_eigenvalues_impl(const table& value)`. -/
def train_result.set_eigenvalues_impl {Model Table : Type} (r : train_result Model Table)
    (value : Table) : train_result Model Table :=
  ⟨{ r.impl_ with eigenvalues := value }⟩

/-- Member `void train_result<Task>::set_explained_variance_impl(const table& value)`. -/
def train_result.set_explained_variance_impl {Model Table : Type} (r : train_result Model Table)
    (value : Table) : train_result Model Table :=
  ⟨{ r.impl_ with explained_variance := value }⟩

end oneapi.dal.pca

namespace daal.services.internal

/-! ## Heap lemmas -/

theorem Heap.lookup_alloc (h : Heap) (obj : BufferIface) :
    (h.alloc obj).1.lookup (h.alloc obj).2 = some ⟨obj, 1⟩ := by
  simp [Heap.lookup, Heap.alloc]

theorem Heap.lookup_lt_length (h : Heap) (p : Nat) (c : Cell) (hp : h.lookup p = some c) :
    0 < p ∧ p - 1 < h.cells.length := by
  unfold Heap.lookup at hp
  split at hp
  · cases hp
  · rename_i hne
    refine ⟨Nat.pos_of_ne_zero hne, ?_⟩
    by_contra hge
    have hnone : h.cells[p - 1]? = none := List.getElem?_eq_none (Nat.le_of_not_lt hge)
    rw [hnone] at hp
    cases hp

theorem Heap.lookup_alloc_of_lookup (h : Heap) (obj : BufferIface) (p : Nat) (c : Cell)
    (hp : h.lookup p = some c) : (h.alloc obj).1.lookup p = some c := by
  have hlt := h.lookup_lt_length p c hp
  unfold Heap.lookup at hp ⊢
  have hne : p ≠ 0 := Nat.pos_iff_ne_zero.mp hlt.1
  simp only [hne, if_false] at hp ⊢
  simp only [Heap.alloc]
  rw [List.getElem?_append_left hlt.2]
  exact hp

theorem Heap.lookup_release_shared (h : Heap) (p : Nat) (c : Cell)
    (hp : h.lookup p = some c) (hrefs : 2 ≤ c.refs) :
    (h.release p).lookup p = some ⟨c.obj, c.refs - 1⟩ := by
  have hlt := h.lookup_lt_length p c hp
  have hne : p ≠ 0 := Nat.pos_iff_ne_zero.mp hlt.1
  have hnle : ¬ c.refs ≤ 1 := by omega
  have hrel : h.release p = ⟨h.cells.set (p - 1) (some ⟨c.obj, c.refs - 1⟩)⟩ := by
    unfold Heap.release
    rw [hp]
    simp only [if_neg hnle]
  rw [hrel]
  simp [Heap.lookup, hne, hlt.2]

theorem Buffer.eq_empty_of_toBool_false (b : Buffer) (hb : b.toBool = false) : b._impl = 0 := by
  simpa [Buffer.toBool] using hb

theorem Buffer.impl_ne_zero_of_toBool (b : Buffer) (hb : b.toBool = true) : b._impl ≠ 0 := by
  simpa [Buffer.toBool] using hb

/-! ## Claims about Buffer -/

/-- C1: for every access mode, `toHost` on an empty Buffer with an error-output slot
supplied returns the null host pointer, leaves the empty-buffer error in the slot and
does not halt; without a slot it halts with the empty-buffer error. -/
theorem toHost_empty_buffer
    (conv : BufferIface → ReadWriteMode → Option Status → Outcome (SharedPtr × Option Status))
    (h : Heap) (b : Buffer) (rwFlag : ReadWriteMode) (hb : b.toBool = false) :
    (∀ s : Status, b.toHost conv h rwFlag (some s)
        = .ret (SharedPtr.null, some (.error .ErrorEmptyBuffer)))
    ∧ SharedPtr.null.get = 0
    ∧ b.toHost conv h rwFlag none = .halt .ErrorEmptyBuffer := by
  have h0 := b.eq_empty_of_toBool_false hb
  refine ⟨fun s => ?_, rfl, ?_⟩
  · simp [Buffer.toHost, h0, tryAssignStatusAndThrow, Outcome.bind]
  · simp [Buffer.toHost, h0, tryAssignStatusAndThrow, Outcome.bind]

theorem toHost_empty_buffer_witness :
    Buffer.empty.toBool = false
    ∧ Buffer.empty.toHost (fun _ _ st => .ret (⟨7⟩, st)) Heap.empty .readOnly (some .ok)
        = .ret (SharedPtr.null, some (.error .ErrorEmptyBuffer))
    ∧ Buffer.empty.toHost (fun _ _ st => .ret (⟨7⟩, st)) Heap.empty .readOnly none
        = .halt .ErrorEmptyBuffer :=
  ⟨rfl,
   (toHost_empty_buffer (fun _ _ st => .ret (⟨7⟩, st)) Heap.empty Buffer.empty .readOnly rfl).1 .ok,
   (toHost_empty_buffer (fun _ _ st => .ret (⟨7⟩, st)) Heap.empty Buffer.empty .readOnly rfl).2.2⟩

/-- C3: `size()` yields a count for every Buffer except one whose non-null `_impl` is not
live; for an empty Buffer it is 0 and the boolean conversion is false; a Buffer constructed
over host data with element count `n`, by the raw-pointer or by the shared-pointer
constructor, has size `n` and boolean conversion true. -/
theorem size_of_constructed :
    (∀ (h : Heap) (b : Buffer), b.size h = none ↔ (b._impl ≠ 0 ∧ h.lookup b._impl = none))
    ∧ (∀ h : Heap, Buffer.empty.size h = some 0)
    ∧ Buffer.empty.toBool = false
    ∧ (∀ (h : Heap) (data n : Nat),
        (Buffer.ofRawPtr h data n).2.size (Buffer.ofRawPtr h data n).1 = some n
        ∧ (Buffer.ofRawPtr h data n).2.toBool = true)
    ∧ (∀ (h : Heap) (data : SharedPtr) (n : Nat),
        (Buffer.ofSharedPtr h data n).2.size (Buffer.ofSharedPtr h data n).1 = some n
        ∧ (Buffer.ofSharedPtr h data n).2.toBool = true) := by
  refine ⟨fun h b => ?_, fun h => rfl, rfl, fun h data n => ⟨?_, ?_⟩, fun h data n => ⟨?_, ?_⟩⟩
  · unfold Buffer.size
    split
    · rename_i h0
      simp [h0]
    · rename_i hne
      simp [hne]
  · have hl := h.lookup_alloc (.HostBuffer ⟨data⟩ n)
    simp only [Buffer.size, Buffer.ofRawPtr, hl]
    simp [Heap.alloc, BufferIface.size]
  · simp [Buffer.ofRawPtr, Buffer.toBool, Heap.alloc]
  · have hl := h.lookup_alloc (.HostBuffer data n)
    simp only [Buffer.size, Buffer.ofSharedPtr, hl]
    simp [Heap.alloc, BufferIface.size]
  · simp [Buffer.ofSharedPtr, Buffer.toBool, Heap.alloc]

/-- C4: `a == b` holds iff `a` and `b` hold the identical backend reference, and
`a != b` is its negation; a Buffer equals a copy of itself, and a Buffer newly constructed
over host data, whatever the data pointer and count, is unequal to every Buffer whose
backend is live. -/
theorem eq_is_identity (h : Heap) (a b : Buffer) (data : SharedPtr) (n : Nat) :
    (a.eq b = true ↔ a._impl = b._impl)
    ∧ a.ne b = !(a.eq b)
    ∧ a.eq (a.copy h).2 = true
    ∧ (a.copy h).2.eq a = true
    ∧ (h.lookup a._impl ≠ none →
        a.eq (Buffer.ofSharedPtr h data n).2 = false
        ∧ (Buffer.ofSharedPtr h data n).2.eq a = false
        ∧ a.eq (Buffer.ofRawPtr h data.get n).2 = false
        ∧ (Buffer.ofRawPtr h data.get n).2.eq a = false) := by
  refine ⟨by simp [Buffer.eq], by simp [Buffer.eq, Buffer.ne, bne], by simp [Buffer.eq, Buffer.copy],
    by simp [Buffer.eq, Buffer.copy], ?_⟩
  intro hlive
  obtain ⟨c, hc⟩ := Option.ne_none_iff_exists'.mp hlive
  have hlt := h.lookup_lt_length a._impl c hc
  have hne : a._impl ≠ h.cells.length + 1 := by omega
  refine ⟨?_, ?_, ?_, ?_⟩
  · simpa [Buffer.eq, Buffer.ofSharedPtr, Heap.alloc] using hne
  · simpa [Buffer.eq, Buffer.ofSharedPtr, Heap.alloc] using fun e => hne e.symm
  · simpa [Buffer.eq, Buffer.ofRawPtr, Heap.alloc] using hne
  · simpa [Buffer.eq, Buffer.ofRawPtr, Heap.alloc] using fun e => hne e.symm

theorem eq_is_identity_witness :
    (Buffer.ofSharedPtr Heap.empty ⟨100⟩ 5).1.lookup (Buffer.ofSharedPtr Heap.empty ⟨100⟩ 5).2._impl ≠ none
    ∧ (Buffer.ofSharedPtr Heap.empty ⟨100⟩ 5).2.eq
        (Buffer.ofSharedPtr (Buffer.ofSharedPtr Heap.empty ⟨100⟩ 5).1 ⟨100⟩ 5).2 = false :=
  ⟨by decide,
   ((eq_is_identity (Buffer.ofSharedPtr Heap.empty ⟨100⟩ 5).1 (Buffer.ofSharedPtr Heap.empty ⟨100⟩ 5).2
      Buffer.empty ⟨100⟩ 5).2.2.2.2 (by decide)).1⟩

/-- C5: after `reset()` every Buffer is empty (boolean conversion false, size 0);
`reset()` on an empty Buffer changes neither the Buffer nor the heap; and a Buffer `c`
that shares the backend of `b` still refers, after `b.reset()`, to the same live backend
object, with the same size and the same non-empty status. -/
theorem reset_frame (h : Heap) (b c : Buffer) :
    (b.reset h).2.toBool = false
    ∧ (b.reset h).2.size (b.reset h).1 = some 0
    ∧ (b.toBool = false → b.reset h = (h, b))
    ∧ (∀ cell : Cell, c._impl = b._impl → b.toBool = true →
        h.lookup b._impl = some cell → 2 ≤ cell.refs →
        ((b.reset h).1.lookup c._impl).map Cell.obj = (h.lookup c._impl).map Cell.obj
        ∧ (b.reset h).1.lookup c._impl ≠ none
        ∧ c.size (b.reset h).1 = c.size h
        ∧ c.size h = some cell.obj.size
        ∧ c.toBool = true) := by
  have hfst : (b.reset h).2 = ⟨0⟩ := by
    unfold Buffer.reset
    split <;> rfl
  refine ⟨by simp [hfst, Buffer.toBool], by simp [hfst, Buffer.size], ?_, ?_⟩
  · intro hb
    have h0 := b.eq_empty_of_toBool_false hb
    cases b
    simp only at h0
    subst h0
    rfl
  · intro cell hshare hb hcell hrefs
    have hne := b.impl_ne_zero_of_toBool hb
    have hrel := h.lookup_release_shared b._impl cell hcell hrefs
    have hreset : b.reset h = (h.release b._impl, ⟨0⟩) := by simp [Buffer.reset, hne]
    refine ⟨?_, ?_, ?_, ?_, ?_⟩
    · simp [hreset, hshare, hrel, hcell]
    · simp [hreset, hshare, hrel]
    · simp [hreset, Buffer.size, hshare, hne, hrel, hcell]
    · simp [Buffer.size, hshare, hne, hcell]
    · simpa [Buffer.toBool, hshare] using hne

theorem reset_frame_witness :
    ((Buffer.ofRawPtr Heap.empty 100 5).2.copy (Buffer.ofRawPtr Heap.empty 100 5).1).2.size
        ((Buffer.ofRawPtr Heap.empty 100 5).2.reset
          ((Buffer.ofRawPtr Heap.empty 100 5).2.copy (Buffer.ofRawPtr Heap.empty 100 5).1).1).1
      = some 5
    ∧ Buffer.empty.reset Heap.empty = (Heap.empty, Buffer.empty) := by
  have hw := reset_frame
    ((Buffer.ofRawPtr Heap.empty 100 5).2.copy (Buffer.ofRawPtr Heap.empty 100 5).1).1
    (Buffer.ofRawPtr Heap.empty 100 5).2
    ((Buffer.ofRawPtr Heap.empty 100 5).2.copy (Buffer.ofRawPtr Heap.empty 100 5).1).2
  have hf := hw.2.2.2 ⟨.HostBuffer ⟨100⟩ 5, 2⟩ rfl (by decide) (by decide) (by decide)
  exact ⟨hf.2.2.1.trans hf.2.2.2.1,
    (reset_frame Heap.empty Buffer.empty Buffer.empty).2.2.1 rfl⟩

/-- C6: for every offset and count, `getSubBuffer` on an empty Buffer, in any heap,
returns the heap unchanged together with an empty Buffer and the empty-buffer error in the
slot when a slot is supplied, and halts with the empty-buffer error when none is; whatever
it returns is an empty Buffer (boolean false, size 0). -/
theorem getSubBuffer_empty_buffer (h : Heap) (b : Buffer) (offset size : Nat)
    (hb : b.toBool = false) :
    (∀ s : Status, b.getSubBuffer h offset size (some s)
        = .ret (h, Buffer.empty, some (.error .ErrorEmptyBuffer)))
    ∧ b.getSubBuffer h offset size none = .halt .ErrorEmptyBuffer
    ∧ (∀ status h1 r st, b.getSubBuffer h offset size status = .ret (h1, r, st) →
        h1 = h ∧ r.toBool = false ∧ r.size h1 = some 0) := by
  have h0 := b.eq_empty_of_toBool_false hb
  refine ⟨fun s => ?_, ?_, ?_⟩
  · simp [Buffer.getSubBuffer, h0, tryAssignStatusAndThrow, Outcome.bind]
  · simp [Buffer.getSubBuffer, h0, tryAssignStatusAndThrow, Outcome.bind]
  · intro status h1 r st hret
    cases status with
    | none => simp [Buffer.getSubBuffer, h0, tryAssignStatusAndThrow, Outcome.bind] at hret
    | some s =>
      simp only [Buffer.getSubBuffer, h0, tryAssignStatusAndThrow, Outcome.bind, if_true,
        Outcome.ret.injEq, Prod.mk.injEq] at hret
      obtain ⟨rfl, rfl, -⟩ := hret
      exact ⟨rfl, rfl, rfl⟩

theorem getSubBuffer_empty_buffer_witness :
    Buffer.empty.toBool = false
    ∧ Buffer.empty.getSubBuffer (Buffer.ofRawPtr Heap.empty 100 5).1 3 2 (some .ok)
        = .ret ((Buffer.ofRawPtr Heap.empty 100 5).1, Buffer.empty, some (.error .ErrorEmptyBuffer))
    ∧ Buffer.empty.getSubBuffer (Buffer.ofRawPtr Heap.empty 100 5).1 3 2 none
        = .halt .ErrorEmptyBuffer :=
  ⟨rfl,
   (getSubBuffer_empty_buffer (Buffer.ofRawPtr Heap.empty 100 5).1 Buffer.empty 3 2 rfl).1 .ok,
   (getSubBuffer_empty_buffer (Buffer.ofRawPtr Heap.empty 100 5).1 Buffer.empty 3 2 rfl).2.1⟩

/-- C2: for a non-empty Buffer of size `N` and every offset `k` and count `m` with
`k + m > N`, `getSubBuffer(k, m)` stops with the out-of-range precondition violation,
whether or not an error-output slot is supplied; it returns no Buffer. -/
theorem getSubBuffer_out_of_range (h : Heap) (b : Buffer) (N k m : Nat) (status : Option Status)
    (hb : b.toBool = true) (hN : b.size h = some N) (hk : N < k + m) :
    b.getSubBuffer h k m status = .halt .OutOfRangeSubBuffer := by
  have hne := b.impl_ne_zero_of_toBool hb
  simp only [Buffer.size, hne, if_false, Option.map_eq_some'] at hN
  obtain ⟨c, hc, hsz⟩ := hN
  have hnle : ¬ k + m ≤ c.obj.size := by omega
  simp [Buffer.getSubBuffer, hne, hc, BufferIface.getSubBuffer, hnle, Outcome.bind]

theorem getSubBuffer_out_of_range_witness :
    (Buffer.ofRawPtr Heap.empty 100 5).2.toBool = true
    ∧ (Buffer.ofRawPtr Heap.empty 100 5).2.size (Buffer.ofRawPtr Heap.empty 100 5).1 = some 5
    ∧ (Buffer.ofRawPtr Heap.empty 100 5).2.getSubBuffer (Buffer.ofRawPtr Heap.empty 100 5).1 3 3
        (some .ok) = .halt .OutOfRangeSubBuffer :=
  ⟨by decide, by decide,
   getSubBuffer_out_of_range (Buffer.ofRawPtr Heap.empty 100 5).1 (Buffer.ofRawPtr Heap.empty 100 5).2
     5 3 3 (some .ok) (by decide) (by decide) (by decide)⟩

/-- C9: for a Host-backed Buffer of size `N` and `k + m ≤ N`, `getSubBuffer(k, m)` returns,
with the slot untouched, a Buffer whose boolean conversion is true and whose size is `m`,
and whose `i`-th element, for `i < m`, is the element of the parent at index `k + i`
(the parent read before or after the call). -/
theorem getSubBuffer_host_range {T : Type} (mem : Nat → T) (h : Heap) (b : Buffer)
    (data : SharedPtr) (N refs k m : Nat) (status : Option Status)
    (hcell : h.lookup b._impl = some ⟨.HostBuffer data N, refs⟩) (hk : k + m ≤ N) :
    ∃ (h1 : Heap) (sub : Buffer),
      b.getSubBuffer h k m status = .ret (h1, sub, status)
      ∧ sub.toBool = true
      ∧ sub.size h1 = some m
      ∧ b.size h = some N
      ∧ ∀ i, i < m →
          sub.hostElem mem h1 i = b.hostElem mem h (k + i)
          ∧ sub.hostElem mem h1 i = b.hostElem mem h1 (k + i)
          ∧ b.hostElem mem h (k + i) = some (mem (data.get + (k + i))) := by
  have hlt := h.lookup_lt_length b._impl _ hcell
  have hne : b._impl ≠ 0 := Nat.pos_iff_ne_zero.mp hlt.1
  have hl := h.lookup_alloc (.HostBuffer ⟨data.get + k⟩ m)
  have hold := h.lookup_alloc_of_lookup (.HostBuffer ⟨data.get + k⟩ m) b._impl _ hcell
  refine ⟨(h.alloc (.HostBuffer ⟨data.get + k⟩ m)).1, ⟨(h.alloc (.HostBuffer ⟨data.get + k⟩ m)).2⟩,
    ?_, ?_, ?_, ?_, ?_⟩
  · simp [Buffer.getSubBuffer, hne, hcell, BufferIface.getSubBuffer, BufferIface.size, hk,
      Outcome.bind]
  · simp [Buffer.toBool, Heap.alloc]
  · simp only [Buffer.size, hl]
    simp [Heap.alloc, BufferIface.size]
  · simp [Buffer.size, hne, hcell, BufferIface.size]
  · intro i hi
    have hki : k + i < N := by omega
    refine ⟨?_, ?_, ?_⟩
    · simp only [Buffer.hostElem, hl, hcell]
      simp [hi, hki, Nat.add_assoc]
    · simp only [Buffer.hostElem, hl, hold]
      simp [hi, hki, Nat.add_assoc]
    · simp [Buffer.hostElem, hcell, hki]

theorem getSubBuffer_host_range_witness :
    (∃ (h1 : Heap) (sub : Buffer),
      (Buffer.ofRawPtr Heap.empty 100 5).2.getSubBuffer (Buffer.ofRawPtr Heap.empty 100 5).1 5 0 none
          = .ret (h1, sub, none)
      ∧ sub.toBool = true ∧ sub.size h1 = some 0)
    ∧ (∃ (h1 : Heap) (sub : Buffer),
      (Buffer.ofRawPtr Heap.empty 100 5).2.getSubBuffer (Buffer.ofRawPtr Heap.empty 100 5).1 0 5 none
          = .ret (h1, sub, none)
      ∧ sub.size h1 = some 5 ∧ sub.hostElem (fun a => a - 99) h1 4 = some 5)
    ∧ (∃ (h1 : Heap) (sub : Buffer),
      (Buffer.ofRawPtr Heap.empty 100 5).2.getSubBuffer (Buffer.ofRawPtr Heap.empty 100 5).1 1 3 none
          = .ret (h1, sub, none)
      ∧ sub.size h1 = some 3 ∧ sub.hostElem (fun a => a - 99) h1 0 = some 2) := by
  refine ⟨?_, ?_, ?_⟩
  · obtain ⟨h1, sub, hret, hbool, hsize, -⟩ :=
      getSubBuffer_host_range (fun a => a - 99) (Buffer.ofRawPtr Heap.empty 100 5).1
        (Buffer.ofRawPtr Heap.empty 100 5).2 ⟨100⟩ 5 1 5 0 none (by decide) (by decide)
    exact ⟨h1, sub, hret, hbool, hsize⟩
  · obtain ⟨h1, sub, hret, -, hsize, -, hel⟩ :=
      getSubBuffer_host_range (fun a => a - 99) (Buffer.ofRawPtr Heap.empty 100 5).1
        (Buffer.ofRawPtr Heap.empty 100 5).2 ⟨100⟩ 5 1 0 5 none (by decide) (by decide)
    exact ⟨h1, sub, hret, hsize, (hel 4 (by decide)).1.trans (hel 4 (by decide)).2.2⟩
  · obtain ⟨h1, sub, hret, -, hsize, -, hel⟩ :=
      getSubBuffer_host_range (fun a => a - 99) (Buffer.ofRawPtr Heap.empty 100 5).1
        (Buffer.ofRawPtr Heap.empty 100 5).2 ⟨100⟩ 5 1 1 3 none (by decide) (by decide)
    exact ⟨h1, sub, hret, hsize, (hel 0 (by decide)).1.trans (hel 0 (by decide)).2.2⟩

/-- C7, as stated, fails: `toSycl` on the empty Buffer with a slot supplied sets the
empty-buffer error and returns an accelerator buffer of range 1, which holds one element,
not zero. -/
theorem toSycl_empty_buffer_range_counterexample :
    Buffer.empty.toSycl (fun _ => .halt .UnsupportedConversion) Heap.empty (some .ok)
        = .ret (⟨1⟩, some (.error .ErrorEmptyBuffer))
    ∧ ¬ ((⟨1⟩ : sycl_buffer).range = 0) :=
  ⟨rfl, by decide⟩

/-- C7, amended: on an empty Buffer with a slot supplied, `toUSM` sets the empty-buffer
error and returns the null pointer, and `toSycl` sets the empty-buffer error and returns
the accelerator buffer constructed with range 1; neither halts. -/
theorem toSycl_toUSM_empty_buffer (convSycl : BufferIface → Outcome sycl_buffer)
    (convUSM : BufferIface → Outcome SharedPtr) (h : Heap) (b : Buffer) (s : Status)
    (hb : b.toBool = false) :
    b.toUSM convUSM h (some s) = .ret (SharedPtr.null, some (.error .ErrorEmptyBuffer))
    ∧ (∃ r, b.toSycl convSycl h (some s) = .ret (r, some (.error .ErrorEmptyBuffer))
        ∧ r.range = 1) := by
  have h0 := b.eq_empty_of_toBool_false hb
  refine ⟨?_, ⟨1⟩, ?_, rfl⟩
  · simp [Buffer.toUSM, h0, tryAssignStatusAndThrow, Outcome.bind]
  · simp [Buffer.toSycl, h0, tryAssignStatusAndThrow, Outcome.bind]

theorem toSycl_toUSM_empty_buffer_witness :
    Buffer.empty.toBool = false
    ∧ Buffer.empty.toUSM (fun _ => .ret ⟨7⟩) Heap.empty (some .ok)
        = .ret (SharedPtr.null, some (.error .ErrorEmptyBuffer))
    ∧ (∃ r, Buffer.empty.toSycl (fun _ => .ret ⟨7⟩) Heap.empty (some .ok)
          = .ret (r, some (.error .ErrorEmptyBuffer))
        ∧ r.range = 1) :=
  ⟨rfl, toSycl_toUSM_empty_buffer (fun _ => .ret ⟨7⟩) (fun _ => .ret ⟨7⟩) Heap.empty Buffer.empty
    .ok rfl⟩

/-- C8, evaluated on the code: on a Host-backed Buffer of five elements with a clean slot
supplied, a converter that fails with an allocation failure makes `toSycl` and `toUSM`
stop with that failure; nothing is returned and the slot is not written.  When the
converter succeeds the slot comes back as it was passed. -/
theorem toSycl_toUSM_failure_bypasses_slot :
    (Buffer.ofRawPtr Heap.empty 100 5).2.toBool = true
    ∧ (Buffer.ofRawPtr Heap.empty 100 5).2.toSycl (fun _ => .halt .AllocationFailure)
        (Buffer.ofRawPtr Heap.empty 100 5).1 (some .ok) = .halt .AllocationFailure
    ∧ (Buffer.ofRawPtr Heap.empty 100 5).2.toUSM (fun _ => .halt .AllocationFailure)
        (Buffer.ofRawPtr Heap.empty 100 5).1 (some .ok) = .halt .AllocationFailure
    ∧ (Buffer.ofRawPtr Heap.empty 100 5).2.toSycl (fun impl => .ret ⟨impl.size⟩)
        (Buffer.ofRawPtr Heap.empty 100 5).1 (some .ok) = .ret (⟨5⟩, some .ok) := by
  decide

end daal.services.internal

namespace oneapi.dal.pca

/-! ## Claims about train_result -/

/-- C10: each getter of `train_result` returns the value last stored by its setter;
`get_eigenvectors()` is `get_model().get_eigenvectors()` and so changes only when the
model is set; setting the eigenvalues or the explained variance leaves the other two
fields unchanged, and setting the model leaves the eigenvalues and the explained variance
unchanged. -/
theorem train_result_get_set {Model Table : Type} (model_get_eigenvectors : Model → Table)
    (r : train_result Model Table) (m : Model) (t : Table) :
    (r.set_model_impl m).get_model = m
    ∧ (r.set_eigenvalues_impl t).get_eigenvalues = t
    ∧ (r.set_explained_variance_impl t).get_explained_variance = t
    ∧ r.get_eigenvectors model_get_eigenvectors = model_get_eigenvectors r.get_model
    ∧ (r.set_model_impl m).get_eigenvectors model_get_eigenvectors = model_get_eigenvectors m
    ∧ (r.set_eigenvalues_impl t).get_eigenvectors model_get_eigenvectors
        = r.get_eigenvectors model_get_eigenvectors
    ∧ (r.set_explained_variance_impl t).get_eigenvectors model_get_eigenvectors
        = r.get_eigenvectors model_get_eigenvectors
    ∧ (r.set_eigenvalues_impl t).get_model = r.get_model
    ∧ (r.set_eigenvalues_impl t).get_explained_variance = r.get_explained_variance
    ∧ (r.set_explained_variance_impl t).get_model = r.get_model
    ∧ (r.set_explained_variance_impl t).get_eigenvalues = r.get_eigenvalues
    ∧ (r.set_model_impl m).get_eigenvalues = r.get_eigenvalues
    ∧ (r.set_model_impl m).get_explained_variance = r.get_explained_variance :=
  ⟨rfl, rfl, rfl, rfl, rfl, rfl, rfl, rfl, rfl, rfl, rfl, rfl, rfl⟩

end oneapi.dal.pca
